import Mathlib

/-!
# Verification of the nntp response-body transport and decoding layer

Shallow embedding of the repository's decoding code:

* `yenc_reader.go` — the yEnc decoder (`yencReader`): per-line byte
  decoding (`decode`), line-level stepping (`nextLine`) and drain-on-close
  (`Close`).
* `zlib_dot_reader.go` — the compressed body reader (`zlibDotResponse`):
  two-phase close (`Close`, `readDot`).
* The overview engine, overview-record parser and dot-terminated body
  reader live in the repository's `nntp.go`, which is not available; those
  are modelled from the specification (each such definition's doc comment
  says so).

Bytes are modelled as `Nat` values below 256, with the Go byte arithmetic
`(x - k) & 255` written as `(x + (256 - k)) % 256`.  Streams are lists:
a list of bytes for one line, a list of lines for the remaining input.
-/

namespace Nntp

/-! ## yEnc decoder (`yenc_reader.go`)

`yencReader.decode` walks a line left to right carrying the
`awaitingSpecial` bit: an escaped byte becomes `((b - 42) & 255 - 64) & 255`,
a `'='` (byte 61) sets the bit and emits nothing, any other byte becomes
`(b - 42) & 255`.  The Go loop mutates the buffer in place with a read
index `i` and a write index `j ≤ i`; since the write at `j` happens after
the read at `i`, it is equivalent to the functional pass below, which
returns the final `awaitingSpecial` bit together with the decoded bytes. -/

/-- One decoded output byte in the normal (unescaped) case:
Go `(line[i] - 42) & 255`. -/
def yenc42 (b : Nat) : Nat := (b + (256 - 42)) % 256

/-- One decoded output byte in the escaped case:
Go `(((line[i] - 42) & 255) - 64) & 255`. -/
def yenc42_64 (b : Nat) : Nat := ((b + (256 - 42)) % 256 + (256 - 64)) % 256

/-- Embedding of `yencReader.decode` (yenc_reader.go lines 76-96): decode
one data line starting from escape-pending state `a`; returns the final
escape-pending state and the decoded bytes. -/
def yencDecodeLine (a : Bool) (line : List Nat) : Bool × List Nat :=
  match line with
  | [] => (a, [])
  | b :: rest =>
    if a then
      let p := yencDecodeLine false rest
      (p.1, yenc42_64 b :: p.2)
    else if b = 61 then
      yencDecodeLine true rest
    else
      let p := yencDecodeLine false rest
      (p.1, yenc42 b :: p.2)

/-- The number of `'='` escape markers consumed while decoding `line` from
escape-pending state `a` (the Go loop's final `i - j`). -/
def yencMarkerCount (a : Bool) (line : List Nat) : Nat :=
  match line with
  | [] => 0
  | b :: rest =>
    if a then yencMarkerCount false rest
    else if b = 61 then 1 + yencMarkerCount true rest
    else yencMarkerCount false rest

/-- The bytes of the marker `"=ybegin"`. -/
def ybeginBytes : List Nat := [61, 121, 98, 101, 103, 105, 110]

/-- The bytes of the marker `"=yend"`. -/
def yendBytes : List Nat := [61, 121, 101, 110, 100]

/-- Go `len(line) >= 7 && string(line[:7]) == "=ybegin"`. -/
def isYbeginLine (line : List Nat) : Bool := ybeginBytes.isPrefixOf line

/-- Go `len(line) >= 5 && string(line[:5]) == "=yend"`. -/
def isYendLine (line : List Nat) : Bool := yendBytes.isPrefixOf line

/-- The mutable state of a `yencReader` (yenc_reader.go lines 10-16), minus
the underlying `bufio.Reader`, which is modelled separately as the list of
remaining (already CRLF-chomped) lines. -/
structure YencState where
  readHeader : Bool
  awaitingSpecial : Bool
  eof : Bool
  buf : List Nat
  deriving Repr, DecidableEq

/-- The state of a freshly constructed `yencReader`. -/
def yencInit : YencState :=
  { readHeader := false, awaitingSpecial := false, eof := false, buf := [] }

/-- Errors a `yencReader` step can produce. -/
inductive YencErr where
  /-- `io.EOF`, both from the exhausted underlying stream and as the
  end-of-data signal after `=yend`. -/
  | eofErr : YencErr
  /-- `fmt.Errorf("expected =ybegin, got %q", ...)` carrying the line. -/
  | formatErr : List Nat → YencErr
  deriving Repr, DecidableEq

/-- Result of one `nextLine` step: the updated reader state, the remaining
input lines, and the returned error (`none` for Go `nil`). -/
structure YencStep where
  state : YencState
  stream : List (List Nat)
  err : Option YencErr
  deriving Repr, DecidableEq

/-- Embedding of `yencReader.nextLine` (yenc_reader.go lines 41-74).  The
underlying `bufio.Reader` is the list of remaining chomped lines; an empty
list makes `ReadBytes` fail with `io.EOF` without consuming anything. -/
def yencNextLine (s : YencState) (stream : List (List Nat)) : YencStep :=
  if s.eof then ⟨s, stream, some .eofErr⟩
  else
    match stream with
    | [] => ⟨s, [], some .eofErr⟩
    | line :: rest =>
      if s.readHeader = false then
        if isYbeginLine line then
          ⟨{ s with readHeader := true }, rest, none⟩
        else
          ⟨s, rest, some (.formatErr line)⟩
      else if isYendLine line then
        ⟨{ s with eof := true }, rest, some .eofErr⟩
      else
        let p := yencDecodeLine s.awaitingSpecial line
        ⟨{ s with awaitingSpecial := p.1, buf := p.2 }, rest, none⟩

/-- Embedding of the loop body of `yencReader.Close` (yenc_reader.go lines
30-39), run for at most `fuel` iterations: repeatedly call `nextLine`
(ignoring its error, as the Go code does) until `eof` is set. -/
def yencCloseLoop (fuel : Nat) (s : YencState) (stream : List (List Nat)) :
    YencState × List (List Nat) :=
  match fuel with
  | 0 => (s, stream)
  | fuel + 1 =>
    if s.eof then (s, stream)
    else
      let r := yencNextLine s stream
      yencCloseLoop fuel r.state r.stream

/-- Modelled from the spec: the yEnc encoder is not part of the repository
(the repository only decodes); §8 of the spec describes it as "offset 42
with `'='` escaping, all arithmetic modulo 256".  A byte is escaped when
its encoded value would collide with a protocol-sensitive value (NUL, LF,
CR or the escape character `'='` itself, per the yEnc convention the spec
names); an escaped byte is emitted as `'='` followed by the encoded value
plus the secondary offset 64, modulo 256. -/
def yencCritical (e : Nat) : Bool := e = 0 || e = 10 || e = 13 || e = 61

/-- Modelled from the spec: yEnc-encode a byte sequence into the bytes of
a data line (offset 42, escaping via `yencCritical`, arithmetic mod 256);
the `=ybegin` header and `=yend` trailer are not part of the data bytes. -/
def yencEncode (bs : List Nat) : List Nat :=
  match bs with
  | [] => []
  | x :: rest =>
    if yencCritical ((x + 42) % 256) then
      61 :: ((x + 42) % 256 + 64) % 256 :: yencEncode rest
    else
      (x + 42) % 256 :: yencEncode rest

theorem yencDecodeLine_length_add (line : List Nat) :
    ∀ a, (yencDecodeLine a line).2.length + yencMarkerCount a line
      = line.length := by
  induction line with
  | nil => intro a; simp [yencDecodeLine, yencMarkerCount]
  | cons b rest ih =>
    intro a
    cases a with
    | true =>
      simp only [yencDecodeLine, yencMarkerCount, if_true, List.length_cons]
      have h := ih false
      omega
    | false =>
      by_cases hb : b = 61
      · simp only [yencDecodeLine, yencMarkerCount, hb, if_neg, if_pos,
          Bool.false_eq_true, not_false_eq_true, List.length_cons]
        have h := ih true
        omega
      · simp only [yencDecodeLine, yencMarkerCount, hb, if_neg, if_false,
          Bool.false_eq_true, not_false_eq_true, List.length_cons]
        have h := ih false
        omega

theorem yenc42_roundtrip (x : Nat) (hx : x < 256) :
    yenc42 ((x + 42) % 256) = x := by
  unfold yenc42
  omega

theorem yenc42_64_roundtrip (x : Nat) (hx : x < 256) :
    yenc42_64 (((x + 42) % 256 + 64) % 256) = x := by
  unfold yenc42_64
  omega

/-- C4: `yencReader.decode` processes bytes left to right with one bit of
carried state: with escape-pending set, the output byte is
`(input − 42 − 64) mod 256` and the pending bit is cleared; otherwise a
`'='` byte sets the pending bit and emits nothing; otherwise the output
byte is `(input − 42) mod 256`.  The decoded line is exactly as long as
the input minus the number of `'='` escape markers consumed. -/
theorem yenc_decode_line_stepwise :
    (∀ b rest, yencDecodeLine true (b :: rest)
      = ((yencDecodeLine false rest).1,
         yenc42_64 b :: (yencDecodeLine false rest).2))
    ∧ (∀ rest, yencDecodeLine false (61 :: rest) = yencDecodeLine true rest)
    ∧ (∀ b rest, b ≠ 61 → yencDecodeLine false (b :: rest)
      = ((yencDecodeLine false rest).1,
         yenc42 b :: (yencDecodeLine false rest).2))
    ∧ (∀ a line, (yencDecodeLine a line).2.length
      = line.length - yencMarkerCount a line) := by
  refine ⟨fun b rest => rfl, fun rest => rfl, fun b rest hb => ?_, ?_⟩
  · simp [yencDecodeLine, hb]
  · intro a line
    have h := yencDecodeLine_length_add line a
    omega

/-- Witness for C4: the normal-byte case at byte 114 (`'r'`), which is not
the escape character, decodes to 72 (`'H'`). -/
theorem yenc_decode_line_stepwise_witness :
    yencDecodeLine false [114] = (false, [72]) :=
  (yenc_decode_line_stepwise.2.2.1 114 [] (by decide)).trans (by decide)

/-- C5: for every byte sequence, yEnc-encoding (offset 42 with `'='`
escaping, mod 256) and then running `yencReader.decode` over the encoded
data bytes yields the original sequence, with the escape-pending state
ending cleared. -/
theorem yenc_decode_encode (bs : List Nat) (h : ∀ x ∈ bs, x < 256) :
    yencDecodeLine false (yencEncode bs) = (false, bs) := by
  induction bs with
  | nil => rfl
  | cons x rest ih =>
    have hx : x < 256 := h x (List.mem_cons_self x rest)
    have hrest : ∀ y ∈ rest, y < 256 := fun y hy => h y (List.mem_cons_of_mem x hy)
    cases hc : yencCritical ((x + 42) % 256) with
    | true =>
      have hstep : yencDecodeLine false
          (61 :: ((x + 42) % 256 + 64) % 256 :: yencEncode rest)
          = ((yencDecodeLine false (yencEncode rest)).1,
             yenc42_64 (((x + 42) % 256 + 64) % 256)
               :: (yencDecodeLine false (yencEncode rest)).2) := rfl
      have henc : yencEncode (x :: rest)
          = 61 :: ((x + 42) % 256 + 64) % 256 :: yencEncode rest := by
        simp only [yencEncode, hc, eq_self_iff_true, if_true]
      rw [henc, hstep, ih hrest, yenc42_64_roundtrip x hx]
    | false =>
      have hne : (x + 42) % 256 ≠ 61 := by
        intro he
        rw [he] at hc
        simp [yencCritical] at hc
      simp [yencEncode, hc, yencDecodeLine, hne, ih hrest,
        yenc42_roundtrip x hx]

/-- Witness for C5: round trip at the bytes `[72, 105, 19]`; the byte 19
encodes to the critical value 61 (`'='`) and is escaped. -/
theorem yenc_decode_encode_witness :
    yencDecodeLine false (yencEncode [72, 105, 19]) = (false, [72, 105, 19]) :=
  yenc_decode_encode [72, 105, 19] (by decide)

/-- C7: a data line whose decode leaves the escape-pending bit set (an
odd, dangling `'='` at line end) carries that state across the line
boundary: the reader state after `nextLine` has `awaitingSpecial = true`,
and the first byte the next data line contributes to the buffer is decoded
with the escaped formula `(input − 42 − 64) mod 256`. -/
theorem yenc_escape_carry (s : YencState) (line1 : List Nat) (b : Nat)
    (line2 : List Nat) (stream : List (List Nat))
    (hrh : s.readHeader = true) (heof : s.eof = false)
    (h1 : isYendLine line1 = false) (h2 : isYendLine (b :: line2) = false)
    (hd : (yencDecodeLine s.awaitingSpecial line1).1 = true) :
    (yencNextLine s (line1 :: (b :: line2) :: stream)).state.awaitingSpecial
      = true
    ∧ (yencNextLine (yencNextLine s (line1 :: (b :: line2) :: stream)).state
        (yencNextLine s (line1 :: (b :: line2) :: stream)).stream).state.buf.head?
      = some (yenc42_64 b) := by
  have e1 : yencNextLine s (line1 :: (b :: line2) :: stream)
      = ⟨{ s with
           awaitingSpecial := (yencDecodeLine s.awaitingSpecial line1).1,
           buf := (yencDecodeLine s.awaitingSpecial line1).2 },
         (b :: line2) :: stream, none⟩ := by
    simp [yencNextLine, heof, hrh, h1]
  rw [e1]
  refine ⟨hd, ?_⟩
  simp [yencNextLine, heof, hrh, h2, hd, yencDecodeLine]

/-- Witness for C7: line `[114, 61]` ends with a dangling escape; the
next line's first byte 178 decodes to 72 with the escaped formula. -/
theorem yenc_escape_carry_witness :
    (yencNextLine ⟨true, false, false, []⟩
        ([114, 61] :: [178] :: [])).state.awaitingSpecial = true
    ∧ (yencNextLine
        (yencNextLine ⟨true, false, false, []⟩
          ([114, 61] :: [178] :: [])).state
        (yencNextLine ⟨true, false, false, []⟩
          ([114, 61] :: [178] :: [])).stream).state.buf.head?
      = some (yenc42_64 178) :=
  yenc_escape_carry ⟨true, false, false, []⟩ [114, 61] 178 [] [] rfl rfl
    (by decide) (by decide) (by decide)

/-! ## Compressed body reader (`zlib_dot_reader.go`)

`zlibDotResponse` wraps a zlib decompression filter around the shared
buffered clear stream.  `Close` finalizes the filter and then re-reads the
clear-text terminator line via `readDot`.  The decompression filter itself
is the external `compress/zlib` library; it is modelled abstractly by the
result its `Close` call returns.  The clear stream is modelled as the list
of remaining raw lines, each line carrying its own `"\r\n"` bytes, as
`bufio.Reader.ReadString` returns them. -/

/-- Errors of the compressed body reader. -/
inductive ZlibErr where
  /-- `io.EOF` from the exhausted clear stream. -/
  | ioEOF : ZlibErr
  /-- Go builds `ProtocolError(fmt.Sprintf("expected \".\" on a line, got %+q", line))`;
  modelled as carrying the offending raw line. -/
  | protocolErr : List Char → ZlibErr
  /-- A decompression-finalization failure (the spec's `DecodeError`). -/
  | decodeErr : ZlibErr
  deriving Repr, DecidableEq

/-- The mutable state of a `zlibDotResponse` (zlib_dot_reader.go lines
11-16), minus the streams: only the `dotWasRead` flag. -/
structure ZlibDotState where
  dotWasRead : Bool
  deriving Repr, DecidableEq

/-- Result of one close/readDot step: updated state, remaining clear
stream, returned error (`none` for Go `nil`). -/
structure ZlibStep where
  state : ZlibDotState
  clear : List (List Char)
  err : Option ZlibErr
  deriving Repr, DecidableEq

/-- Go `strings.TrimRight(line, "\r\n")`: drop every trailing `'\r'` or
`'\n'`. -/
def trimRightCRLF (line : List Char) : List Char :=
  (line.reverse.dropWhile (fun c => c == '\r' || c == '\n')).reverse

/-- Embedding of `zlibDotResponse.readDot` (zlib_dot_reader.go lines
33-47): if the dot was already read, do nothing and succeed; otherwise set
`dotWasRead` (before reading, as the Go code does), read one line from the
clear stream (`io.EOF` if exhausted), and require it to trim to `"."`,
failing with a `ProtocolError` naming the line otherwise. -/
def zlibReadDot (s : ZlibDotState) (clear : List (List Char)) : ZlibStep :=
  if s.dotWasRead then ⟨s, clear, none⟩
  else
    match clear with
    | [] => ⟨⟨true⟩, [], some .ioEOF⟩
    | line :: rest =>
      if trimRightCRLF line = ['.'] then ⟨⟨true⟩, rest, none⟩
      else ⟨⟨true⟩, rest, some (.protocolErr line)⟩

/-- Embedding of `zlibDotResponse.Close` (zlib_dot_reader.go lines 27-31):
`z.z.Close()` followed by `return z.readDot()`.  The decompression
filter's close result `zerr` is what `z.z.Close()` returns; the Go
statement discards it, which the `let` below mirrors. -/
def zlibClose (zerr : Option ZlibErr) (s : ZlibDotState)
    (clear : List (List Char)) : ZlibStep :=
  let _ := zerr
  zlibReadDot s clear

/-- C2 counterexample: a corrupt or truncated compressed stream makes the
decompression filter's finalization fail with the `DecodeError`, yet
`Close` returns no error at all (the clear stream still holds the
terminator line): the finalization error is discarded, not surfaced. -/
theorem zlib_close_drops_decode_err :
    (zlibClose (some ZlibErr.decodeErr) ⟨false⟩ [['.', '\r', '\n']]).err
      = none := rfl

/-- C2 amended: `Close` finalizes the decompression filter but discards
its result; the outcome of `Close` is exactly the outcome of the
terminator-line check `readDot`, whatever the filter's finalization
returned. -/
theorem zlib_close_ignores_filter_result (zerr : Option ZlibErr)
    (s : ZlibDotState) (clear : List (List Char)) :
    zlibClose zerr s clear = zlibReadDot s clear := rfl

/-- C6: on the first close (`dotWasRead = false`), after finalizing the
filter the reader reads exactly one line from the clear stream; it
succeeds when the line trims to `"."` and fails with a `ProtocolError`
naming the line otherwise. -/
theorem zlib_close_reads_one_clear_line (zerr : Option ZlibErr)
    (s : ZlibDotState) (line : List Char) (rest : List (List Char))
    (h : s.dotWasRead = false) :
    (zlibClose zerr s (line :: rest)).clear = rest
    ∧ ((zlibClose zerr s (line :: rest)).state).dotWasRead = true
    ∧ (trimRightCRLF line = ['.'] →
        (zlibClose zerr s (line :: rest)).err = none)
    ∧ (trimRightCRLF line ≠ ['.'] →
        (zlibClose zerr s (line :: rest)).err
          = some (ZlibErr.protocolErr line)) := by
  by_cases hl : trimRightCRLF line = ['.']
  · simp [zlibClose, zlibReadDot, h, hl]
  · simp [zlibClose, zlibReadDot, h, hl]

/-- Witness for C6: first close over the clear line `".\r\n"` succeeds and
consumes exactly that line. -/
theorem zlib_close_reads_one_clear_line_witness :
    (zlibClose none ⟨false⟩ [['.', '\r', '\n']]).clear = []
    ∧ ((zlibClose none ⟨false⟩ [['.', '\r', '\n']]).state).dotWasRead = true
    ∧ (trimRightCRLF ['.', '\r', '\n'] = ['.'] →
        (zlibClose none ⟨false⟩ [['.', '\r', '\n']]).err = none)
    ∧ (trimRightCRLF ['.', '\r', '\n'] ≠ ['.'] →
        (zlibClose none ⟨false⟩ [['.', '\r', '\n']]).err
          = some (ZlibErr.protocolErr ['.', '\r', '\n'])) :=
  zlib_close_reads_one_clear_line none ⟨false⟩ ['.', '\r', '\n'] [] rfl

/-- C10: closing is idempotent on the clear stream: every close leaves
`dotWasRead` set, and a close that starts with `dotWasRead` set consumes
nothing from the clear stream and returns no error, whatever the
decompression filter's close returned. -/
theorem zlib_close_idempotent :
    (∀ zerr (s : ZlibDotState) clear,
      ((zlibClose zerr s clear).state).dotWasRead = true)
    ∧ (∀ zerr (s : ZlibDotState) clear, s.dotWasRead = true →
      zlibClose zerr s clear = ⟨s, clear, none⟩) := by
  constructor
  · intro zerr s clear
    by_cases h : s.dotWasRead
    · simp [zlibClose, zlibReadDot, h]
    · cases clear with
      | nil => simp [zlibClose, zlibReadDot, h]
      | cons line rest =>
        by_cases hl : trimRightCRLF line = ['.']
        · simp [zlibClose, zlibReadDot, h, hl]
        · simp [zlibClose, zlibReadDot, h, hl]
  · intro zerr s clear h
    simp [zlibClose, zlibReadDot, h]

/-- Witness for C10: a second close after the dot was read is a no-op. -/
theorem zlib_close_idempotent_witness :
    zlibClose (some ZlibErr.decodeErr) ⟨true⟩ [['x']]
      = ⟨⟨true⟩, [['x']], none⟩ :=
  zlib_close_idempotent.2 (some ZlibErr.decodeErr) ⟨true⟩ [['x']] rfl

/-! ## Multiline (dot-terminated) body reader

The Multiline Body Reader lives in the repository's `nntp.go`, which is
not available here; only its tests (`TestBasics`, `basicServer`) are under
`src/`.  It is modelled from §4.2 of the spec. -/

/-- The outcome of reading one line of a dot-terminated body: either a
content line handed to the caller, or the terminator, reported as
end-of-data (a terminal state, not an error). -/
inductive DotStep where
  | content : List Char → DotStep
  | endOfData : DotStep
  deriving Repr, DecidableEq

/-- Modelled from the spec: the dot-terminated Multiline Body Reader of
§4.2 (in the repository's `nntp.go`, not under `src/`).  A line equal to a
single `"."` ends the body as end-of-data; a content line beginning with
`".."` has exactly one leading `"."` stripped (dot-unstuffing); any other
line is content, handed through unchanged. -/
def dotReadLine (line : List Char) : DotStep :=
  if line = ['.'] then .endOfData
  else if ['.', '.'].isPrefixOf line then .content (line.drop 1)
  else .content line

/-- C9: in a dot-terminated body, a line beginning with `".."` is handed
to the caller with exactly one leading `"."` stripped, any other content
line is handed through unchanged, and the single-dot line ends the body as
end-of-data rather than as an error. -/
theorem dot_body_line_handling :
    dotReadLine ['.'] = DotStep.endOfData
    ∧ (∀ t, dotReadLine ('.' :: '.' :: t) = DotStep.content ('.' :: t))
    ∧ (∀ line, ['.', '.'].isPrefixOf line = false → line ≠ ['.'] →
        dotReadLine line = DotStep.content line) := by
  refine ⟨rfl, fun t => ?_, fun line h hne => ?_⟩
  · simp [dotReadLine, List.isPrefixOf]
  · simp [dotReadLine, h, hne]

/-- Witness for C9: the content line `"Fin."` of the test body is handed
through unchanged. -/
theorem dot_body_line_handling_witness :
    dotReadLine "Fin.".data = DotStep.content "Fin.".data :=
  dot_body_line_handling.2.2 "Fin.".data (by decide) (by decide)

/-! ## Overview record parser

The overview parser lives in the repository's `nntp.go`, not under
`src/`; only `TestBasics` exercises it.  It is modelled from the record
parsing rule of §4.5 of the spec.  Strings are lists of characters. -/

/-- Go `strings.Split(line, "\t")` restricted to one line: split on the
tab character, keeping empty fields. -/
def splitTabs (l : List Char) : List (List Char) :=
  match l with
  | [] => [[]]
  | c :: rest =>
    if c = '\t' then [] :: splitTabs rest
    else
      match splitTabs rest with
      | [] => [[c]]
      | f :: fs => (c :: f) :: fs

/-- A whitespace character, as Go `strings.Fields` sees them in overview
fields. -/
def isSpaceChar (c : Char) : Bool := c == ' ' || c == '\t' || c == '\n' || c == '\r'

/-- Go `strings.Fields`: split on runs of whitespace, dropping empty
tokens. -/
def wsFields (l : List Char) : List (List Char) :=
  match l with
  | [] => []
  | c :: rest =>
    if isSpaceChar c then wsFields rest
    else
      match rest with
      | [] => [[c]]
      | d :: _ =>
        if isSpaceChar d then [c] :: wsFields rest
        else
          match wsFields rest with
          | [] => [[c]]
          | f :: fs => (c :: f) :: fs

/-- Parse a run of decimal digits into a `Nat`, accumulator style;
fails on the first non-digit. -/
def parseNatAux (acc : Nat) (l : List Char) : Option Nat :=
  match l with
  | [] => some acc
  | c :: rest =>
    if c.isDigit then parseNatAux (acc * 10 + (c.toNat - 48)) rest
    else none

/-- Parse a non-empty all-digit string as a non-negative integer. -/
def parseNat (l : List Char) : Option Nat :=
  match l with
  | [] => none
  | _ :: _ => parseNatAux 0 l

/-- Tolerant integer parse: empty or unparsable yields 0, never an
error (spec §4.5, fields 6 and 7). -/
def parseNatD0 (l : List Char) : Nat := (parseNat l).getD 0

/-- An overview record (spec §3).  The timestamp is kept as the raw
field text: its parsing against legacy date formats is delegated to the
time library and no claim constrains it. -/
structure MessageOverview where
  number : Nat
  subject : List Char
  sender : List Char
  dateRaw : List Char
  messageId : List Char
  references : List (List Char)
  bytes : Nat
  lineCount : Nat
  extra : List (List Char)
  deriving Repr, DecidableEq

/-- Modelled from the spec: the per-line overview record parser of §4.5
(in the repository's `nntp.go`, not under `src/`).  Tab-delimited; field 0
is the mandatory article number (a non-numeric value fails the record);
fields 1-4 are raw strings; field 5 splits on whitespace dropping empty
tokens; fields 6-7 parse tolerantly to 0; fields 8 onward are preserved
verbatim as extra fields; missing trailing fields are empty/zero. -/
def parseOverviewLine (line : List Char) : Option MessageOverview :=
  let fields := splitTabs line
  match parseNat (fields.getD 0 []) with
  | none => none
  | some n =>
    some
      { number := n
        subject := fields.getD 1 []
        sender := fields.getD 2 []
        dateRaw := fields.getD 3 []
        messageId := fields.getD 4 []
        references := wsFields (fields.getD 5 [])
        bytes := parseNatD0 (fields.getD 6 [])
        lineCount := parseNatD0 (fields.getD 7 [])
        extra := fields.drop 8 }

/-- C8: the spec's scenario-B line parses to a record with article number
11, empty sender, references `["<d@e>", "<a@b>"]` (whitespace-split with
empty tokens dropped) and the single extra field `"Extra stuff"`; and a
line whose references field is empty yields an empty references list. -/
theorem overview_scenario_b :
    (parseOverviewLine
        "11\tSubjectB\t\t18 Oct 2003 19:00:00 +0030\t<e@f>\t<d@e> <a@b>\t2000\t18\tExtra stuff".data).map
        (fun r => (r.number, r.sender, r.references, r.extra))
      = some (11, [], ["<d@e>".data, "<a@b>".data], ["Extra stuff".data])
    ∧ (parseOverviewLine
        "10\tSubjectA\tAuthor\tSat, 18 Oct 2003 18:00:00 +0030\t<a@b>\t\t1000\t9".data).map
        (fun r => r.references)
      = some [] := by
  constructor
  · decide
  · decide

/-! ## Overview engine

`Conn.Overview` lives in the repository's `nntp.go`, not under `src/`;
only `TestHacks` (with its `hackServer`/`hackClient` transcripts) exercises
it.  The three-variant fallback with its capability cache is modelled from
the algorithm of §4.5 of the spec. -/

/-- The three overview command variants, in fallback order. -/
inductive OvCmd where
  /-- the compressed-overview command (`XZVER`) -/
  | xzver : OvCmd
  /-- the standard overview command (`OVER`) -/
  | over : OvCmd
  /-- the legacy extended-header overview command (`XOVER`) -/
  | xover : OvCmd
  deriving Repr, DecidableEq

/-- The status a command's reply carries: success (a body follows) or
failure (no body). -/
inductive CmdStatus where
  | success : CmdStatus
  | failure : CmdStatus
  deriving Repr, DecidableEq

/-- The server's behavior for one overview request: the status it would
return to each of the three commands, were they issued. -/
structure ServerResponses where
  xzver : CmdStatus
  over : CmdStatus
  xover : CmdStatus
  deriving Repr, DecidableEq

/-- The connection's capability cache (spec §3): whether the
compressed-overview command has been observed to be unsupported, for the
connection's remaining lifetime. -/
structure ConnCaps where
  xzverUnsupported : Bool
  deriving Repr, DecidableEq

/-- Modelled from the spec: one overview request of the Overview engine
(§4.5, in the repository's `nntp.go`, not under `src/`).  Step 1: unless
cached as unsupported, issue the compressed-overview command; on success
stop, on failure cache `unsupported` and fall through.  Step 2: issue the
standard command; on success stop.  Step 3: issue the legacy command.
Returns the updated cache and the commands issued, in order. -/
def overviewRequest (caps : ConnCaps) (srv : ServerResponses) :
    ConnCaps × List OvCmd :=
  if caps.xzverUnsupported then
    match srv.over with
    | .success => (caps, [.over])
    | .failure => (caps, [.over, .xover])
  else
    match srv.xzver with
    | .success => (caps, [.xzver])
    | .failure =>
      match srv.over with
      | .success => (⟨true⟩, [.xzver, .over])
      | .failure => (⟨true⟩, [.xzver, .over, .xover])

/-- A sequence of independent overview requests on one connection,
threading the capability cache; each request is paired with the commands
it issued. -/
def overviewSession (caps : ConnCaps) (srvs : List ServerResponses) :
    List (ServerResponses × List OvCmd) :=
  match srvs with
  | [] => []
  | srv :: rest =>
    (srv, (overviewRequest caps srv).2)
      :: overviewSession (overviewRequest caps srv).1 rest

theorem overviewSession_unsupported (rest : List ServerResponses) :
    ∀ p ∈ overviewSession ⟨true⟩ rest,
      OvCmd.xzver ∉ p.2
      ∧ OvCmd.over ∈ p.2
      ∧ (OvCmd.xover ∈ p.2 ↔ p.1.over = CmdStatus.failure) := by
  induction rest with
  | nil => intro p hp; simp [overviewSession] at hp
  | cons srv rest ih =>
    intro p hp
    rcases List.mem_cons.mp hp with hh | ht
    · subst hh
      cases h : srv.over with
      | success => simp [overviewRequest, h]
      | failure => simp [overviewRequest, h]
    · have hcaps : (overviewRequest ⟨true⟩ srv).1 = ⟨true⟩ := by
        cases h : srv.over with
        | success => simp [overviewRequest, h]
        | failure => simp [overviewRequest, h]
      rw [hcaps] at ht
      exact ih p ht

/-- The model reproduces the command transcript of `TestHacks`
(`hackClient` in zlib_dot_reader.go): `XZVER, OVER, XOVER` on the first
request, then only `OVER, XOVER` on the two later ones. -/
theorem overviewSession_matches_test_hacks :
    (overviewSession ⟨false⟩
        [⟨.failure, .failure, .success⟩,
         ⟨.failure, .failure, .success⟩,
         ⟨.failure, .failure, .success⟩]).map (fun p => p.2)
      = [[.xzver, .over, .xover], [.over, .xover], [.over, .xover]] := by
  decide

/-- C1: once the compressed-overview command has failed for one request on
a connection where it was still attempted, no later request of that
connection issues it again, while the standard command is issued on every
later request and the legacy command exactly on those whose standard
command fails — neither standard- nor legacy-command failures are
cached. -/
theorem overview_xzver_failure_cached (caps : ConnCaps)
    (srv1 : ServerResponses) (rest : List ServerResponses)
    (h0 : caps.xzverUnsupported = false)
    (h1 : srv1.xzver = CmdStatus.failure) :
    OvCmd.xzver ∈ (overviewRequest caps srv1).2
    ∧ ∀ p ∈ overviewSession (overviewRequest caps srv1).1 rest,
        OvCmd.xzver ∉ p.2
        ∧ OvCmd.over ∈ p.2
        ∧ (OvCmd.xover ∈ p.2 ↔ p.1.over = CmdStatus.failure) := by
  obtain ⟨b⟩ := caps
  subst h0
  have hreq : (overviewRequest ⟨false⟩ srv1).1 = ⟨true⟩
      ∧ OvCmd.xzver ∈ (overviewRequest ⟨false⟩ srv1).2 := by
    cases h : srv1.over with
    | success => simp [overviewRequest, h1, h]
    | failure => simp [overviewRequest, h1, h]
  refine ⟨hreq.2, ?_⟩
  rw [hreq.1]
  exact overviewSession_unsupported rest

/-- Witness for C1: the `TestHacks` scenario — the first request's
compressed command fails; the two later requests never issue it, issue
the standard command, and fall back to the legacy command because their
standard command fails. -/
theorem overview_xzver_failure_cached_witness :
    OvCmd.xzver ∈ (overviewRequest ⟨false⟩ ⟨.failure, .failure, .success⟩).2
    ∧ ∀ p ∈ overviewSession
        (overviewRequest ⟨false⟩ ⟨.failure, .failure, .success⟩).1
        [⟨.failure, .failure, .success⟩, ⟨.failure, .failure, .success⟩],
        OvCmd.xzver ∉ p.2
        ∧ OvCmd.over ∈ p.2
        ∧ (OvCmd.xover ∈ p.2 ↔ p.1.over = CmdStatus.failure) :=
  overview_xzver_failure_cached ⟨false⟩ ⟨.failure, .failure, .success⟩
    [⟨.failure, .failure, .success⟩, ⟨.failure, .failure, .success⟩] rfl rfl

/-- C3 (code bug): on an already-exhausted input stream the `Close` loop
of `yencReader` makes no progress at all — `nextLine` keeps failing with
`io.EOF` without ever setting `eof`, `Close` ignores that error, and so
after any number of iterations the loop has neither terminated nor changed
the state: the Go loop runs forever. -/
theorem yenc_close_loops_forever (n : Nat) :
    yencCloseLoop n yencInit [] = (yencInit, [])
    ∧ (yencCloseLoop n yencInit []).1.eof = false := by
  induction n with
  | zero => exact ⟨rfl, rfl⟩
  | succ n ih =>
    refine ⟨?_, ?_⟩
    · show yencCloseLoop n yencInit [] = (yencInit, [])
      exact ih.1
    · show (yencCloseLoop n yencInit []).1.eof = false
      exact ih.2

end Nntp
